import Mathlib

/-!
Verification development for the `edx-archive` command-line course
downloader (`src/index.ts`).  The program is a three-phase pipeline:
authenticate, discover download tasks, then download with bounded
concurrency, every phase and every per-task download being wrapped in
the `retryBackoff` exponential-backoff retry operator.  This file gives
a shallow embedding of the program's data model and control flow and
proves the specification claims about it.
-/

namespace EdxArchive

/-- Opaque error payload carried by a failed capability call. -/
abbrev Err := String

instance {E A : Type} [DecidableEq E] [DecidableEq A] : DecidableEq (Except E A) := by
  intro a b
  cases a <;> cases b
  case error.error e1 e2 =>
    exact if h : e1 = e2 then isTrue (by rw [h]) else isFalse (by intro hc; cases hc; exact h rfl)
  case error.ok e1 a2 => exact isFalse (by intro hc; cases hc)
  case ok.error a1 e2 => exact isFalse (by intro hc; cases hc)
  case ok.ok a1 a2 =>
    exact if h : a1 = a2 then isTrue (by rw [h]) else isFalse (by intro hc; cases hc; exact h rfl)

/-- A download task; the orchestrator only uses its name as a label
(`src/index.ts` line 127). -/
structure Task where
  name : String
deriving DecidableEq

/-- A download result pairs the task with an opaque outcome payload
(`result.task.name` is used at `src/index.ts` line 130). -/
structure DownloadResult where
  task : Task
  payload : Nat
deriving DecidableEq

/-- The configuration record assembled by `getConfiguration`
(`src/index.ts` lines 27-66): CLI options plus the course url.
`concurrency` and the other numeric options come from `parseInt`. -/
structure Configuration where
  user : String
  password : String
  output : String
  format : String
  retries : Nat
  delay : Nat
  concurrency : Int
  debug : Bool
  courseUrl : String
deriving DecidableEq

/-- The overrides argument of `clone` (`src/index.ts` line 15), with one
optional field per property the program ever overrides.  `Object.assign`
semantics: a present override field wins, otherwise the base field is kept. -/
structure Overrides where
  userOv : Option String
  passwordOv : Option String
deriving DecidableEq

/-- `clone(object, overwtite)` from `src/index.ts` lines 15-17:
`Object.assign(Object.assign(\x7b\x7d, object), overwtite)` builds a fresh
record; override fields replace base fields, everything else is copied. -/
def clone (c : Configuration) (o : Overrides) : Configuration :=
  { c with
    user := o.userOv.getD c.user,
    password := o.passwordOv.getD c.password }

/-- The overrides used for the debug dump at `src/index.ts` line 77:
both credentials replaced by the literal `<censored>`. -/
def censorOverrides : Overrides :=
  { userOv := some ("<censored>"), passwordOv := some ("<censored>") }

/-- The value printed by the debug branch at `src/index.ts` lines 75-78:
present exactly when the debug flag is set, and then it is the censored
clone, not the configuration itself. -/
def debugPrintedConfig (cfg : Configuration) : Option Configuration :=
  if cfg.debug then some (clone cfg censorOverrides) else none

/-- The configuration handed to `new EdxDownloader(configuration, browser)`
at `src/index.ts` line 97: the original record, not the censored clone. -/
def downloaderConfig (cfg : Configuration) : Configuration := cfg

/-! ### Configuration parsing (`getConfiguration`, `src/index.ts` lines 27-66) -/

/-- Raw command-line material consumed by `getConfiguration`: option
values (with `commander` defaults already applied), positional
arguments, and the values the interactive prompts would return. -/
structure RawOptions where
  user : String
  password : String
  promptedUser : String
  promptedPassword : String
  output : String
  format : String
  retries : Nat
  delay : Nat
  concurrency : Int
  debug : Bool
  args : List String
deriving DecidableEq

/-- `parseFormat` (`src/index.ts` lines 19-25) exits unless the value is
`pdf` or `png`. -/
def parseFormatOk (v : String) : Bool :=
  v = "pdf" || v = "png"

/-- One character of the course-url regular expression: an unescaped `.`
in the pattern matches any character, anything else matches itself.
(The pattern `https:\/\/courses.edx.org\/courses\/` contains two
unescaped dots, in `courses.edx` and `edx.org`.) -/
def charMatch (p c : Char) : Bool :=
  p = '.' || p = c

/-- Match a literal pattern segment (with `.` wildcards) against the
front of the subject, returning the unconsumed remainder. -/
def dropLit : List Char → List Char → Option (List Char)
  | [], cs => some cs
  | _ :: _, [] => none
  | p :: ps, c :: cs => if charMatch p c then dropLit ps cs else none

/-- The fixed head of the course-url pattern (`src/index.ts` line 28),
escaped slashes written plainly. -/
def courseUrlHead : List Char := String.toList ("https://courses.edx.org/courses/")

/-- The fixed tail of the course-url pattern; it contains no wildcard
characters, so plain suffix matching is exact. -/
def courseUrlTail : List Char := String.toList ("/course/")

/-- The anchored regular expression test of `src/index.ts` line 48:
`^https:\/\/courses.edx.org\/courses\/.*\/course\/$` holds exactly when
the head matches the front and the remainder ends with `/course/`
(the greedy `.*` absorbs everything in between). -/
def matchCourseUrl (s : String) : Bool :=
  match dropLit courseUrlHead s.toList with
  | none => false
  | some rest => courseUrlTail.isSuffixOf rest

/-- `getConfiguration` (`src/index.ts` lines 27-66).  `parseFormat`
rejects bad formats during option parsing; then the argument count and
the course-url pattern are checked; empty (falsy) credentials are
replaced by prompted values.  The concurrency option is passed through
with no validation whatsoever. -/
def getConfiguration (o : RawOptions) : Option Configuration :=
  if ¬ parseFormatOk o.format then none
  else if o.args.length ≠ 1 then none
  else if ¬ matchCourseUrl (o.args.headD ("")) then none
  else some
    { user := if o.user = "" then o.promptedUser else o.user,
      password := if o.password = "" then o.promptedPassword else o.password,
      output := o.output,
      format := o.format,
      retries := o.retries,
      delay := o.delay,
      concurrency := o.concurrency,
      debug := o.debug,
      courseUrl := o.args.headD ("") }

/-! ### Backoff (`backoff-rxjs` `retryBackoff`, configured at `src/index.ts` lines 79-83) -/

/-- The `retryBackoff` configuration built in `main` (`src/index.ts`
lines 79-83): fixed 5000 ms initial and 60000 ms maximum interval,
`maxRetries` taken from the `--retries` option. -/
structure BackoffConfig where
  initialInterval : Nat
  maxInterval : Nat
  maxRetries : Nat
deriving DecidableEq

/-- `backoffConfig` from `src/index.ts` lines 79-83. -/
def backoffConfig (cfg : Configuration) : BackoffConfig :=
  { initialInterval := 5000, maxInterval := 60000, maxRetries := cfg.retries }

/-- The delay before retry number `iteration` (0-based), as computed by
`backoff-rxjs`: `exponentialBackoffDelay(iteration, initialInterval) =
2 ^ iteration * initialInterval`, then `getDelay` caps it at
`maxInterval`. -/
def retryDelay (bo : BackoffConfig) (iteration : Nat) : Nat :=
  min (2 ^ iteration * bo.initialInterval) bo.maxInterval

/-- Observable behaviour of one `retryBackoff`-wrapped operation: the
backoff delays waited (one per retry, in order) and the final outcome.
The number of invocations of the underlying operation is
`delays.length + 1`. -/
structure RetryTrace (A : Type) where
  delays : List Nat
  outcome : Except Err A

/-- Number of times the wrapped operation was invoked. -/
def RetryTrace.invocations {A : Type} (t : RetryTrace A) : Nat :=
  t.delays.length + 1

/-- Core of `retryBackoff`: invoke attempt `i` (0-based); on success
stop; on error, if retry budget remains (`iteration < maxRetries` in the
library, here tracked by `fuel = maxRetries - i`), wait
`retryDelay bo i` and resubscribe, else propagate the error. -/
def runRetryAux {A : Type} (bo : BackoffConfig) (op : Nat → Except Err A) :
    Nat → Nat → RetryTrace A
  | 0, i =>
    match op i with
    | Except.ok a => { delays := [], outcome := Except.ok a }
    | Except.error e => { delays := [], outcome := Except.error e }
  | fuel + 1, i =>
    match op i with
    | Except.ok a => { delays := [], outcome := Except.ok a }
    | Except.error _ =>
      let t := runRetryAux bo op fuel (i + 1)
      { delays := retryDelay bo i :: t.delays, outcome := t.outcome }

/-- `retryBackoff bo` applied to a scripted operation (`op k` is the
outcome of its `k`-th invocation): first subscription is attempt 0,
with a budget of `maxRetries` resubscriptions. -/
def runRetry {A : Type} (bo : BackoffConfig) (op : Nat → Except Err A) : RetryTrace A :=
  runRetryAux bo op bo.maxRetries 0

/-! ### The pipeline (`main`, `src/index.ts` lines 68-149) -/

/-- Observable events of one run, in the order `main` performs them.
`wait` is a backoff delay inside whichever retry sequence surrounds it;
the attempt numbers are 0-based invocation indices. -/
inductive Event where
  | launch
  | loginAttempt (k : Nat)
  | discoverAttempt (k : Nat)
  | downloadAttempt (taskName : String) (k : Nat)
  | wait (ms : Nat)
  | report (numResults : Nat)
  | closeBrowser
deriving DecidableEq

/-- Events of one retry sequence whose attempts are rendered by `mk`:
attempt 0, then for each backoff delay a `wait` followed by the next
attempt. -/
def retryEventsAux (mk : Nat → Event) (i : Nat) : List Nat → List Event
  | [] => [mk i]
  | d :: ds => mk i :: Event.wait d :: retryEventsAux mk (i + 1) ds

/-- Events of a finished `retryBackoff`-wrapped operation. -/
def retryEvents {A : Type} (mk : Nat → Event) (t : RetryTrace A) : List Event :=
  retryEventsAux mk 0 t.delays

/-- The external `Downloader` capability (`src/Core`, used at
`src/index.ts` lines 97-139), scripted per invocation: the `Nat`
argument is the 0-based invocation index within one retry sequence, so
retries of the same logical operation may observe different outcomes.
`reportResults` is a pure side effect and appears only as an `Event`. -/
structure Downloader where
  login : Nat → Except Err Unit
  getDownloadTasks : Nat → Except Err (List Task)
  performDownload : Task → Nat → Except Err DownloadResult

/-- Combine the per-task retry outcomes the way the download pipe's
`mergeMap … toArray` does: if every task reached a successful result the
promise resolves with one `DownloadResult` per task, and if any task's
`retryBackoff` exhausted, its error propagates and rejects the whole
pipe (`src/index.ts` lines 121-136). -/
def collectOutcomes : List (Task × RetryTrace DownloadResult) → Except Err (List DownloadResult)
  | [] => Except.ok []
  | (_, tr) :: rest =>
    match tr.outcome with
    | Except.error e => Except.error e
    | Except.ok r =>
      match collectOutcomes rest with
      | Except.error e => Except.error e
      | Except.ok rs => Except.ok (r :: rs)

/-- Outcome of one run of `main`: the event trace, the `results` array
passed to `reportResults` (absent when a phase failed), and the process
exit status (`process.exit(1)` in the catch block, line 147). -/
structure RunResult where
  trace : List Event
  results : Option (List DownloadResult)
  exitCode : Nat

/-- `main` (`src/index.ts` lines 68-149).  The browser is launched
first; the login pipe, the task-discovery pipe and the download pipe are
awaited strictly in this order, each wrapped in `retryBackoff`; a
rejection of any pipe lands in the catch block, which closes the browser
and exits with status 1.  On the failing download path the in-flight
work is unsubscribed, so its partial attempt events are omitted from the
modelled trace. -/
def runMain (cfg : Configuration) (d : Downloader) : RunResult :=
  let bo := backoffConfig cfg
  let lt := runRetry bo d.login
  let loginEvs := retryEvents Event.loginAttempt lt
  match lt.outcome with
  | Except.error _ =>
    { trace := Event.launch :: (loginEvs ++ [Event.closeBrowser]),
      results := none, exitCode := 1 }
  | Except.ok _ =>
    let dt := runRetry bo d.getDownloadTasks
    let discEvs := retryEvents Event.discoverAttempt dt
    match dt.outcome with
    | Except.error _ =>
      { trace := Event.launch :: (loginEvs ++ discEvs ++ [Event.closeBrowser]),
        results := none, exitCode := 1 }
    | Except.ok tasks =>
      let per := tasks.map fun t => (t, runRetry bo (d.performDownload t))
      match collectOutcomes per with
      | Except.error _ =>
        { trace := Event.launch :: (loginEvs ++ discEvs ++ [Event.closeBrowser]),
          results := none, exitCode := 1 }
      | Except.ok rs =>
        let dlEvs := (per.map fun p => retryEvents (Event.downloadAttempt p.1.name) p.2).flatten
        { trace := Event.launch ::
            (loginEvs ++ discEvs ++ dlEvs ++ [Event.report rs.length, Event.closeBrowser]),
          results := some rs, exitCode := 0 }

/-! ### The bounded-concurrency executor (`mergeMap`, `src/index.ts` lines 125-134)

`from(tasks)` emits every task synchronously; `mergeMap` with
`concurrent = configuration.concurrency` subscribes an inner download
observable per task while fewer than `concurrent` are active and buffers
the rest; when an inner completes it shifts one buffered task and runs
it through the same admission check.  The model below follows the rxjs
`MergeMapSubscriber` logic; inner observables are asynchronous, so a
newly admitted task is active until a later completion event. -/

/-- State of the `mergeMap` operator during the download phase. -/
structure ExecState where
  buffer : List Task
  active : List Task
  done : List DownloadResult
deriving DecidableEq

/-- `MergeMapSubscriber._next`: admit the task if a slot is free
(`active.length < concurrent`, a JavaScript number comparison, hence the
`Int` limit), otherwise buffer it. -/
def onNext (n : Int) (s : ExecState) (t : Task) : ExecState :=
  if (s.active.length : Int) < n then { s with active := s.active ++ [t] }
  else { s with buffer := s.buffer ++ [t] }

/-- State after `from(tasks)` has synchronously emitted every task. -/
def initState (n : Int) (tasks : List Task) : ExecState :=
  tasks.foldl (onNext n) { buffer := [], active := [], done := [] }

/-- `MergeMapSubscriber._innerComplete`: the `i`-th active inner
observable finishes with result `r`; it leaves the active set, and if
the buffer is nonempty its head is shifted and re-admitted through
`_next`. -/
def onInnerComplete (n : Int) (s : ExecState) (i : Nat) (r : DownloadResult) : ExecState :=
  let s' : ExecState :=
    { buffer := s.buffer, active := s.active.eraseIdx i, done := s.done ++ [r] }
  match s'.buffer with
  | [] => s'
  | t :: rest => onNext n { s' with buffer := rest } t

/-- One scheduler event: completion of an active download (events whose
index is out of range are impossible and ignored). -/
def step (n : Int) (s : ExecState) (ev : Nat × DownloadResult) : ExecState :=
  if ev.1 < s.active.length then onInnerComplete n s ev.1 ev.2 else s

/-- The executor state after the completion events `evs`, starting from
the synchronous emission of `tasks`. -/
def execTrace (n : Int) (tasks : List Task) (evs : List (Nat × DownloadResult)) : ExecState :=
  evs.foldl (step n) (initState n tasks)

/-! ### Event classification and concrete scenarios used by the theorems -/

/-- Events that can occur while the login pipe (`src/index.ts` lines
100-106) is the active phase: login attempts and their backoff waits. -/
def isAuthEvent : Event → Bool
  | Event.loginAttempt _ => true
  | Event.wait _ => true
  | _ => false

/-- Events that can occur while the task-discovery pipe (`src/index.ts`
lines 109-118) is the active phase. -/
def isDiscoveryEvent : Event → Bool
  | Event.discoverAttempt _ => true
  | Event.wait _ => true
  | _ => false

/-- Events that can occur while the download pipe (`src/index.ts` lines
121-136) is the active phase. -/
def isDownloadEvent : Event → Bool
  | Event.downloadAttempt _ _ => true
  | Event.wait _ => true
  | _ => false

/-- Events of the wrap-up after the download phase: the report call and
the browser shutdown (`src/index.ts` lines 138-142). -/
def isWrapupEvent : Event → Bool
  | Event.report _ => true
  | Event.closeBrowser => true
  | _ => false

/-- Recognizes the `reportResults` invocation event. -/
def isReportEvent : Event → Bool
  | Event.report _ => true
  | _ => false

/-- A concrete configuration: all defaults, debug on, retries 3,
concurrency 4. -/
def cfg0 : Configuration :=
  { user := "u", password := "p", output := "Archive", format := "pdf",
    retries := 3, delay := 1, concurrency := 4, debug := true,
    courseUrl := "https://courses.edx.org/courses/x/course/" }

/-- A concrete task. -/
def tA : Task := { name := "a" }

/-- A second concrete task. -/
def tB : Task := { name := "b" }

/-- A concrete download result for `tA`. -/
def resA : DownloadResult := { task := tA, payload := 0 }

/-- A downloader whose every capability call succeeds at once,
discovering the single task `tA`. -/
def dOk : Downloader :=
  { login := fun _ => Except.ok (),
    getDownloadTasks := fun _ => Except.ok [tA],
    performDownload := fun t _ => Except.ok { task := t, payload := 1 } }

/-- A downloader discovering `[tA, tB]` where every download of `tB`
fails: task `tB` exhausts its retry budget. -/
def dFailB : Downloader :=
  { login := fun _ => Except.ok (),
    getDownloadTasks := fun _ => Except.ok [tA, tB],
    performDownload := fun t _ =>
      if t = tB then Except.error ("download failed")
      else Except.ok { task := t, payload := 1 } }

/-- A downloader whose task discovery fails on every attempt. -/
def dDiscFail : Downloader :=
  { login := fun _ => Except.ok (),
    getDownloadTasks := fun _ => Except.error ("discovery failed"),
    performDownload := fun t _ => Except.ok { task := t, payload := 1 } }

/-- A downloader whose login fails on its first attempt and succeeds on
the second; it discovers no tasks. -/
def dLoginRetry : Downloader :=
  { login := fun k => if k = 0 then Except.error ("network") else Except.ok (),
    getDownloadTasks := fun _ => Except.ok [],
    performDownload := fun t _ => Except.ok { task := t, payload := 1 } }

/-- Raw command-line material with a well-formed course url and format
but a concurrency of 0. -/
def rawC0 : RawOptions :=
  { user := "u", password := "p", promptedUser := "", promptedPassword := "",
    output := "Archive", format := "pdf", retries := 3, delay := 1,
    concurrency := 0, debug := false,
    args := ["https://courses.edx.org/courses/x/course/"] }

/-- The configuration `getConfiguration` produces from `rawC0`. -/
def cfgC0 : Configuration :=
  { user := "u", password := "p", output := "Archive", format := "pdf",
    retries := 3, delay := 1, concurrency := 0, debug := false,
    courseUrl := "https://courses.edx.org/courses/x/course/" }

/-! ### Helper lemmas -/

theorem runRetryAux_ok {A : Type} (bo : BackoffConfig) (op : Nat → Except Err A)
    (fuel i : Nat) (a : A) (h : op i = Except.ok a) :
    runRetryAux bo op fuel i = { delays := [], outcome := Except.ok a } := by
  cases fuel <;> simp [runRetryAux, h]

theorem runRetryAux_allError {A : Type} (bo : BackoffConfig) (op : Nat → Except Err A)
    (e : Err) (h : ∀ k, op k = Except.error e) :
    ∀ fuel i, runRetryAux bo op fuel i =
      { delays := (List.range fuel).map (fun j => retryDelay bo (i + j)),
        outcome := Except.error e } := by
  intro fuel
  induction fuel with
  | zero => intro i; simp [runRetryAux, h]
  | succ fuel ih =>
    intro i
    simp only [runRetryAux, h]
    rw [ih (i + 1), List.range_succ_eq_map, List.map_cons, List.map_map]
    have harg : ((fun j => retryDelay bo (i + j)) ∘ Nat.succ) =
        fun j => retryDelay bo (i + 1 + j) := by
      funext j
      simp only [Function.comp]
      congr 1
      omega
    simp [harg]

theorem runRetryAux_error_outcome {A : Type} (bo : BackoffConfig) (op : Nat → Except Err A) :
    ∀ (fuel i : Nat), (∀ k, i ≤ k → k ≤ i + fuel → ∃ e, op k = Except.error e) →
    ∃ e, (runRetryAux bo op fuel i).outcome = Except.error e := by
  intro fuel
  induction fuel with
  | zero =>
    intro i h
    obtain ⟨e, he⟩ := h i (le_refl i) (by omega)
    exact ⟨e, by simp [runRetryAux, he]⟩
  | succ fuel ih =>
    intro i h
    obtain ⟨e, he⟩ := h i (le_refl i) (by omega)
    obtain ⟨e2, he2⟩ := ih (i + 1) (fun k hk1 hk2 => h k (by omega) (by omega))
    exact ⟨e2, by simp [runRetryAux, he, he2]⟩

theorem runRetry_fail_then_ok {A : Type} (bo : BackoffConfig) (op : Nat → Except Err A)
    (e : Err) (a : A) (h0 : op 0 = Except.error e) (h1 : op 1 = Except.ok a)
    (hr : 1 ≤ bo.maxRetries) :
    runRetry bo op = { delays := [retryDelay bo 0], outcome := Except.ok a } := by
  unfold runRetry
  obtain ⟨fuel, hf⟩ : ∃ fuel, bo.maxRetries = fuel + 1 := ⟨bo.maxRetries - 1, by omega⟩
  rw [hf]
  simp [runRetryAux, h0, runRetryAux_ok bo op fuel 1 a h1]

theorem collectOutcomes_length (l : List (Task × RetryTrace DownloadResult)) :
    ∀ rs, collectOutcomes l = Except.ok rs → rs.length = l.length := by
  induction l with
  | nil =>
    intro rs h
    simp [collectOutcomes] at h
    simp [← h]
  | cons p rest ih =>
    intro rs h
    obtain ⟨t, tr⟩ := p
    simp only [collectOutcomes] at h
    cases ho : tr.outcome with
    | error e => rw [ho] at h; simp at h
    | ok r =>
      rw [ho] at h
      cases hc : collectOutcomes rest with
      | error e => rw [hc] at h; simp at h
      | ok rs2 =>
        rw [hc] at h
        simp only [Except.ok.injEq] at h
        rw [← h]
        simp [ih rs2 hc]

theorem collectOutcomes_ok (l : List (Task × RetryTrace DownloadResult))
    (h : ∀ p ∈ l, ∃ r, p.2.outcome = Except.ok r) :
    ∃ rs, collectOutcomes l = Except.ok rs := by
  induction l with
  | nil => exact ⟨[], rfl⟩
  | cons p rest ih =>
    obtain ⟨t, tr⟩ := p
    obtain ⟨r, hr⟩ := h (t, tr) (by simp)
    simp only at hr
    obtain ⟨rs, hrs⟩ := ih (fun q hq => h q (by simp [hq]))
    exact ⟨r :: rs, by simp [collectOutcomes, hr, hrs]⟩

theorem collectOutcomes_error (l : List (Task × RetryTrace DownloadResult))
    (p : Task × RetryTrace DownloadResult) (hp : p ∈ l) (e : Err)
    (he : p.2.outcome = Except.error e) :
    ∃ e2, collectOutcomes l = Except.error e2 := by
  induction l with
  | nil => simp at hp
  | cons q rest ih =>
    obtain ⟨qt, qtr⟩ := q
    rcases List.mem_cons.mp hp with h1 | h2
    · refine ⟨e, ?_⟩
      rw [h1] at he
      simp only at he
      simp [collectOutcomes, he]
    · cases ho : qtr.outcome with
      | error e3 => exact ⟨e3, by simp [collectOutcomes, ho]⟩
      | ok r =>
        obtain ⟨e2, he2⟩ := ih h2
        exact ⟨e2, by simp [collectOutcomes, ho, he2]⟩

theorem mem_retryEventsAux (mk : Nat → Event) :
    ∀ (ds : List Nat) (i : Nat) (ev : Event), ev ∈ retryEventsAux mk i ds →
      (∃ j, ev = mk j) ∨ ∃ m, ev = Event.wait m := by
  intro ds
  induction ds with
  | nil =>
    intro i ev h
    simp [retryEventsAux] at h
    exact Or.inl ⟨i, h⟩
  | cons d ds ih =>
    intro i ev h
    simp only [retryEventsAux, List.mem_cons] at h
    rcases h with h | h | h
    · exact Or.inl ⟨i, h⟩
    · exact Or.inr ⟨d, h⟩
    · exact ih (i + 1) ev h

theorem mem_retryEvents {A : Type} (mk : Nat → Event) (t : RetryTrace A) (ev : Event)
    (h : ev ∈ retryEvents mk t) : (∃ j, ev = mk j) ∨ ∃ m, ev = Event.wait m :=
  mem_retryEventsAux mk t.delays 0 ev h

theorem retryEventsAux_head (mk : Nat → Event) (i : Nat) (ds : List Nat) :
    ∃ rest, retryEventsAux mk i ds = mk i :: rest := by
  cases ds <;> exact ⟨_, rfl⟩

theorem runMain_login_err (cfg : Configuration) (d : Downloader) (e : Err)
    (h : (runRetry (backoffConfig cfg) d.login).outcome = Except.error e) :
    runMain cfg d =
      { trace := Event.launch ::
          (retryEvents Event.loginAttempt (runRetry (backoffConfig cfg) d.login) ++
            [Event.closeBrowser]),
        results := none, exitCode := 1 } := by
  simp [runMain, h]

theorem runMain_disc_err (cfg : Configuration) (d : Downloader) (u : Unit) (e : Err)
    (hl : (runRetry (backoffConfig cfg) d.login).outcome = Except.ok u)
    (hd : (runRetry (backoffConfig cfg) d.getDownloadTasks).outcome = Except.error e) :
    runMain cfg d =
      { trace := Event.launch ::
          (retryEvents Event.loginAttempt (runRetry (backoffConfig cfg) d.login) ++
            retryEvents Event.discoverAttempt (runRetry (backoffConfig cfg) d.getDownloadTasks) ++
            [Event.closeBrowser]),
        results := none, exitCode := 1 } := by
  simp [runMain, hl, hd]

theorem runMain_dl_err (cfg : Configuration) (d : Downloader) (u : Unit)
    (tasks : List Task) (e : Err)
    (hl : (runRetry (backoffConfig cfg) d.login).outcome = Except.ok u)
    (hd : (runRetry (backoffConfig cfg) d.getDownloadTasks).outcome = Except.ok tasks)
    (hc : collectOutcomes (tasks.map fun t => (t, runRetry (backoffConfig cfg) (d.performDownload t)))
      = Except.error e) :
    runMain cfg d =
      { trace := Event.launch ::
          (retryEvents Event.loginAttempt (runRetry (backoffConfig cfg) d.login) ++
            retryEvents Event.discoverAttempt (runRetry (backoffConfig cfg) d.getDownloadTasks) ++
            [Event.closeBrowser]),
        results := none, exitCode := 1 } := by
  simp [runMain, hl, hd, hc]

theorem runMain_all_ok (cfg : Configuration) (d : Downloader) (u : Unit)
    (tasks : List Task) (rs : List DownloadResult)
    (hl : (runRetry (backoffConfig cfg) d.login).outcome = Except.ok u)
    (hd : (runRetry (backoffConfig cfg) d.getDownloadTasks).outcome = Except.ok tasks)
    (hc : collectOutcomes (tasks.map fun t => (t, runRetry (backoffConfig cfg) (d.performDownload t)))
      = Except.ok rs) :
    runMain cfg d =
      { trace := Event.launch ::
          (retryEvents Event.loginAttempt (runRetry (backoffConfig cfg) d.login) ++
            retryEvents Event.discoverAttempt (runRetry (backoffConfig cfg) d.getDownloadTasks) ++
            ((tasks.map fun t => (t, runRetry (backoffConfig cfg) (d.performDownload t))).map
                (fun p => retryEvents (Event.downloadAttempt p.1.name) p.2)).flatten ++
            [Event.report rs.length, Event.closeBrowser]),
        results := some rs, exitCode := 0 } := by
  simp [runMain, hl, hd, hc]

theorem not_mem_retryEvents_of_ctor {A : Type} (mk : Nat → Event) (ev : Event)
    (hmk : ∀ j, mk j ≠ ev) (hw : ∀ m, Event.wait m ≠ ev) (t : RetryTrace A) :
    ev ∉ retryEvents mk t := by
  intro h
  rcases mem_retryEvents mk t ev h with ⟨j, hj⟩ | ⟨m, hm⟩
  · exact hmk j hj.symm
  · exact hw m hm.symm

/-! ### Claim theorems -/

/-- C3: for every attempt number `a` in `[1, maxRetries]` the backoff
policy yields the delay `min(initial * 2 ^ (a - 1), max)` — hence
non-decreasing in the attempt number and never exceeding `max` — and at
attempt `maxRetries + 1` it yields exhaustion instead of a delay: an
operation failing on every attempt is invoked exactly `maxRetries + 1`
times, waits exactly the `maxRetries` delays of attempts
`1 .. maxRetries` (none after the last attempt), and its final outcome
is the propagated error. -/
theorem backoffPolicy_delay_spec (bo : BackoffConfig) (a : Nat)
    (ha1 : 1 ≤ a) (ha2 : a ≤ bo.maxRetries) :
    retryDelay bo (a - 1) = min (bo.initialInterval * 2 ^ (a - 1)) bo.maxInterval ∧
    retryDelay bo (a - 1) ≤ bo.maxInterval ∧
    (∀ b, a ≤ b → retryDelay bo (a - 1) ≤ retryDelay bo (b - 1)) ∧
    (∀ (op : Nat → Except Err Unit) (e : Err), (∀ k, op k = Except.error e) →
      (runRetry bo op).delays = (List.range bo.maxRetries).map (retryDelay bo) ∧
      (runRetry bo op).outcome = Except.error e ∧
      (runRetry bo op).invocations = bo.maxRetries + 1) := by
  refine ⟨by rw [retryDelay, Nat.mul_comm], Nat.min_le_right _ _, ?_, ?_⟩
  · intro b hb
    unfold retryDelay
    refine min_le_min (Nat.mul_le_mul_right _ ?_) (le_refl _)
    exact Nat.pow_le_pow_right (by norm_num) (by omega)
  · intro op e hop
    have h := runRetryAux_allError bo op e hop bo.maxRetries 0
    rw [runRetry, h]
    refine ⟨by simp, rfl, ?_⟩
    simp [RetryTrace.invocations]

/-- C3 witness: concrete instantiation at attempt 2 of the
`retries = 3` configuration. -/
theorem backoffPolicy_delay_spec_witness :
    (1 ≤ 2 ∧ 2 ≤ (backoffConfig cfg0).maxRetries) ∧
    (retryDelay (backoffConfig cfg0) (2 - 1) =
        min ((backoffConfig cfg0).initialInterval * 2 ^ (2 - 1)) (backoffConfig cfg0).maxInterval ∧
      retryDelay (backoffConfig cfg0) (2 - 1) ≤ (backoffConfig cfg0).maxInterval ∧
      (∀ b, 2 ≤ b → retryDelay (backoffConfig cfg0) (2 - 1) ≤ retryDelay (backoffConfig cfg0) (b - 1)) ∧
      (∀ (op : Nat → Except Err Unit) (e : Err), (∀ k, op k = Except.error e) →
        (runRetry (backoffConfig cfg0) op).delays =
          (List.range (backoffConfig cfg0).maxRetries).map (retryDelay (backoffConfig cfg0)) ∧
        (runRetry (backoffConfig cfg0) op).outcome = Except.error e ∧
        (runRetry (backoffConfig cfg0) op).invocations = (backoffConfig cfg0).maxRetries + 1)) :=
  ⟨by decide, backoffPolicy_delay_spec (backoffConfig cfg0) 2 (by decide) (by decide)⟩

/-- C1 (amended): when authentication and discovery succeed, the
download phase produces exactly one `DownloadResult` per discovered task
provided every task succeeds within its retry budget (in particular the
empty task sequence yields the empty result set); but a single task that
exhausts its retries is not recorded as a failed `DownloadResult` — its
error propagates, the whole batch aborts with no result set and the run
exits with status 1. -/
theorem downloadPhase_one_result_per_task (cfg : Configuration) (d : Downloader)
    (u : Unit) (tasks : List Task)
    (hl : (runRetry (backoffConfig cfg) d.login).outcome = Except.ok u)
    (hd : (runRetry (backoffConfig cfg) d.getDownloadTasks).outcome = Except.ok tasks) :
    ((∀ t ∈ tasks, ∃ r, (runRetry (backoffConfig cfg) (d.performDownload t)).outcome = Except.ok r) →
      ∃ rs, (runMain cfg d).results = some rs ∧ rs.length = tasks.length) ∧
    ((∃ t ∈ tasks, ∃ e, (runRetry (backoffConfig cfg) (d.performDownload t)).outcome = Except.error e) →
      (runMain cfg d).results = none ∧ (runMain cfg d).exitCode = 1) := by
  constructor
  · intro hall
    have hall' : ∀ p ∈ (tasks.map fun t => (t, runRetry (backoffConfig cfg) (d.performDownload t))),
        ∃ r, p.2.outcome = Except.ok r := by
      intro p hp
      obtain ⟨t, ht, rfl⟩ := List.mem_map.mp hp
      simpa using hall t ht
    obtain ⟨rs, hrs⟩ := collectOutcomes_ok _ hall'
    refine ⟨rs, ?_, ?_⟩
    · rw [runMain_all_ok cfg d u tasks rs hl hd hrs]
    · have hlen := collectOutcomes_length _ rs hrs
      simpa using hlen
  · rintro ⟨t, ht, e, he⟩
    have hmem : (t, runRetry (backoffConfig cfg) (d.performDownload t)) ∈
        (tasks.map fun t => (t, runRetry (backoffConfig cfg) (d.performDownload t))) :=
      List.mem_map.mpr ⟨t, ht, rfl⟩
    obtain ⟨e2, he2⟩ := collectOutcomes_error _ _ hmem e (by simpa using he)
    rw [runMain_dl_err cfg d u tasks e2 hl hd he2]
    exact ⟨rfl, rfl⟩

/-- C1 counterexample: `dFailB` discovers the two tasks `[tA, tB]` and
task `tB` exhausts its retries; the claim as stated requires a
2-element result set and a continuing run, but the code produces no
result set at all and exits 1. -/
theorem downloadPhase_abort_counterexample :
    (runRetry (backoffConfig cfg0) dFailB.getDownloadTasks).outcome = Except.ok [tA, tB] ∧
    (∃ e, (runRetry (backoffConfig cfg0) (dFailB.performDownload tB)).outcome = Except.error e) ∧
    (runMain cfg0 dFailB).results = none ∧
    (runMain cfg0 dFailB).exitCode = 1 := by
  refine ⟨by decide, ⟨"download failed", by decide⟩, by decide, by decide⟩

/-- C1 witness: the amended theorem applied to the all-success
downloader `dOk` with its single discovered task. -/
theorem downloadPhase_one_result_per_task_witness :
    ((runRetry (backoffConfig cfg0) dOk.login).outcome = Except.ok () ∧
      (runRetry (backoffConfig cfg0) dOk.getDownloadTasks).outcome = Except.ok [tA]) ∧
    (((∀ t ∈ [tA], ∃ r, (runRetry (backoffConfig cfg0) (dOk.performDownload t)).outcome = Except.ok r) →
        ∃ rs, (runMain cfg0 dOk).results = some rs ∧ rs.length = [tA].length) ∧
      ((∃ t ∈ [tA], ∃ e, (runRetry (backoffConfig cfg0) (dOk.performDownload t)).outcome = Except.error e) →
        (runMain cfg0 dOk).results = none ∧ (runMain cfg0 dOk).exitCode = 1)) :=
  ⟨⟨by decide, by decide⟩,
    downloadPhase_one_result_per_task cfg0 dOk () [tA] (by decide) (by decide)⟩

/-- C4: if task discovery fails on every one of its `maxRetries + 1`
attempts, the run exits with status 1, no result set is produced, and
the download capability is never invoked (no download attempt event
occurs in the trace). -/
theorem discovery_exhaustion_aborts_run (cfg : Configuration) (d : Downloader)
    (hd : ∀ k, k ≤ cfg.retries → ∃ e, d.getDownloadTasks k = Except.error e) :
    (runMain cfg d).exitCode = 1 ∧ (runMain cfg d).results = none ∧
    ∀ nm k, Event.downloadAttempt nm k ∉ (runMain cfg d).trace := by
  cases hl : (runRetry (backoffConfig cfg) d.login).outcome with
  | error e =>
    rw [runMain_login_err cfg d e hl]
    refine ⟨rfl, rfl, ?_⟩
    intro nm k hmem
    simp only [List.mem_cons, List.mem_append, List.mem_singleton] at hmem
    rcases hmem with h | h | h
    · exact Event.noConfusion h
    · exact not_mem_retryEvents_of_ctor _ _ (by intro j; simp) (by intro m; simp) _ h
    · simp at h
  | ok u =>
    obtain ⟨e, he⟩ := runRetryAux_error_outcome (backoffConfig cfg) d.getDownloadTasks
      cfg.retries 0 (fun k hk1 hk2 => hd k (by omega))
    have he' : (runRetry (backoffConfig cfg) d.getDownloadTasks).outcome = Except.error e := he
    rw [runMain_disc_err cfg d u e hl he']
    refine ⟨rfl, rfl, ?_⟩
    intro nm k hmem
    simp only [List.mem_cons, List.mem_append, List.mem_singleton] at hmem
    rcases hmem with h | (h | h) | h
    · exact Event.noConfusion h
    · exact not_mem_retryEvents_of_ctor _ _ (by intro j; simp) (by intro m; simp) _ h
    · exact not_mem_retryEvents_of_ctor _ _ (by intro j; simp) (by intro m; simp) _ h
    · simp at h

/-- C4 witness: the theorem applied to the always-failing discovery
downloader `dDiscFail`. -/
theorem discovery_exhaustion_aborts_run_witness :
    (∀ k, k ≤ cfg0.retries → ∃ e, dDiscFail.getDownloadTasks k = Except.error e) ∧
    ((runMain cfg0 dDiscFail).exitCode = 1 ∧ (runMain cfg0 dDiscFail).results = none ∧
      ∀ nm k, Event.downloadAttempt nm k ∉ (runMain cfg0 dDiscFail).trace) :=
  ⟨fun k _ => ⟨"discovery failed", rfl⟩,
    discovery_exhaustion_aborts_run cfg0 dDiscFail
      (fun k _ => ⟨"discovery failed", rfl⟩)⟩


theorem auth_events_retryEvents {A : Type} (t : RetryTrace A) :
    ∀ ev ∈ retryEvents Event.loginAttempt t, isAuthEvent ev = true := by
  intro ev h
  rcases mem_retryEvents _ _ _ h with ⟨j, rfl⟩ | ⟨m, rfl⟩ <;> rfl

theorem discovery_events_retryEvents {A : Type} (t : RetryTrace A) :
    ∀ ev ∈ retryEvents Event.discoverAttempt t, isDiscoveryEvent ev = true := by
  intro ev h
  rcases mem_retryEvents _ _ _ h with ⟨j, rfl⟩ | ⟨m, rfl⟩ <;> rfl

theorem download_events_flatten (per : List (Task × RetryTrace DownloadResult)) :
    ∀ ev ∈ (per.map fun p => retryEvents (Event.downloadAttempt p.1.name) p.2).flatten,
      isDownloadEvent ev = true := by
  intro ev h
  rw [List.mem_flatten] at h
  obtain ⟨s, hs, hev⟩ := h
  obtain ⟨p, hp, rfl⟩ := List.mem_map.mp hs
  rcases mem_retryEvents _ _ _ hev with ⟨j, rfl⟩ | ⟨m, rfl⟩ <;> rfl

theorem auth_ne_launch_close (ev : Event) (h : isAuthEvent ev = true) :
    ev ≠ Event.launch ∧ ev ≠ Event.closeBrowser := by
  cases ev <;> simp_all [isAuthEvent]

theorem discovery_ne_launch_close (ev : Event) (h : isDiscoveryEvent ev = true) :
    ev ≠ Event.launch ∧ ev ≠ Event.closeBrowser := by
  cases ev <;> simp_all [isDiscoveryEvent]

theorem download_ne_launch_close (ev : Event) (h : isDownloadEvent ev = true) :
    ev ≠ Event.launch ∧ ev ≠ Event.closeBrowser := by
  cases ev <;> simp_all [isDownloadEvent]

theorem auth_not_report (ev : Event) (h : isAuthEvent ev = true) :
    isReportEvent ev = false := by
  cases ev <;> simp_all [isAuthEvent, isReportEvent]

theorem discovery_not_report (ev : Event) (h : isDiscoveryEvent ev = true) :
    isReportEvent ev = false := by
  cases ev <;> simp_all [isDiscoveryEvent, isReportEvent]

theorem download_not_report (ev : Event) (h : isDownloadEvent ev = true) :
    isReportEvent ev = false := by
  cases ev <;> simp_all [isDownloadEvent, isReportEvent]


/-- C5: the three phases run strictly in sequence.  After the initial
browser launch, every trace decomposes into an authentication segment,
then a discovery segment, then a download segment, then wrap-up — no two
phases ever interleave — and a download attempt can exist only when the
discovery retry sequence has already concluded successfully with a fixed
task list: every download attempt names a task of that list. -/
theorem phases_strictly_sequential (cfg : Configuration) (d : Downloader) :
    ∃ (A B C D : List Event),
      (runMain cfg d).trace = Event.launch :: (A ++ B ++ C ++ D) ∧
      (∀ ev ∈ A, isAuthEvent ev = true) ∧
      (∀ ev ∈ B, isDiscoveryEvent ev = true) ∧
      (∀ ev ∈ C, isDownloadEvent ev = true) ∧
      (∀ ev ∈ D, isWrapupEvent ev = true) ∧
      (∀ nm k, Event.downloadAttempt nm k ∈ (runMain cfg d).trace →
        ∃ tasks, (runRetry (backoffConfig cfg) d.getDownloadTasks).outcome = Except.ok tasks ∧
          nm ∈ tasks.map Task.name) := by
  cases hl : (runRetry (backoffConfig cfg) d.login).outcome with
  | error e =>
    rw [runMain_login_err cfg d e hl]
    refine ⟨retryEvents Event.loginAttempt (runRetry (backoffConfig cfg) d.login),
      [], [], [Event.closeBrowser], by simp, auth_events_retryEvents _, by simp, by simp,
      by intro ev h; simp at h; simp [h, isWrapupEvent], ?_⟩
    intro nm k hmem
    simp only [List.mem_cons, List.mem_append] at hmem
    rcases hmem with h | h | h
    · exact absurd h (by simp)
    · exact absurd h (not_mem_retryEvents_of_ctor _ _ (by intro j; simp) (by intro m; simp) _)
    · simp at h
  | ok u =>
    cases hd : (runRetry (backoffConfig cfg) d.getDownloadTasks).outcome with
    | error e =>
      rw [runMain_disc_err cfg d u e hl hd]
      refine ⟨retryEvents Event.loginAttempt (runRetry (backoffConfig cfg) d.login),
        retryEvents Event.discoverAttempt (runRetry (backoffConfig cfg) d.getDownloadTasks),
        [], [Event.closeBrowser], by simp, auth_events_retryEvents _,
        discovery_events_retryEvents _, by simp,
        by intro ev h; simp at h; simp [h, isWrapupEvent], ?_⟩
      intro nm k hmem
      simp only [List.mem_cons, List.mem_append] at hmem
      rcases hmem with h | (h | h) | h
      · exact absurd h (by simp)
      · exact absurd h (not_mem_retryEvents_of_ctor _ _ (by intro j; simp) (by intro m; simp) _)
      · exact absurd h (not_mem_retryEvents_of_ctor _ _ (by intro j; simp) (by intro m; simp) _)
      · simp at h
    | ok tasks =>
      cases hc : collectOutcomes
          (tasks.map fun t => (t, runRetry (backoffConfig cfg) (d.performDownload t))) with
      | error e =>
        rw [runMain_dl_err cfg d u tasks e hl hd hc]
        refine ⟨retryEvents Event.loginAttempt (runRetry (backoffConfig cfg) d.login),
          retryEvents Event.discoverAttempt (runRetry (backoffConfig cfg) d.getDownloadTasks),
          [], [Event.closeBrowser], by simp, auth_events_retryEvents _,
          discovery_events_retryEvents _, by simp,
          by intro ev h; simp at h; simp [h, isWrapupEvent], ?_⟩
        intro nm k hmem
        simp only [List.mem_cons, List.mem_append] at hmem
        rcases hmem with h | (h | h) | h
        · exact absurd h (by simp)
        · exact absurd h (not_mem_retryEvents_of_ctor _ _ (by intro j; simp) (by intro m; simp) _)
        · exact absurd h (not_mem_retryEvents_of_ctor _ _ (by intro j; simp) (by intro m; simp) _)
        · simp at h
      | ok rs =>
        rw [runMain_all_ok cfg d u tasks rs hl hd hc]
        refine ⟨retryEvents Event.loginAttempt (runRetry (backoffConfig cfg) d.login),
          retryEvents Event.discoverAttempt (runRetry (backoffConfig cfg) d.getDownloadTasks),
          ((tasks.map fun t => (t, runRetry (backoffConfig cfg) (d.performDownload t))).map
            (fun p => retryEvents (Event.downloadAttempt p.1.name) p.2)).flatten,
          [Event.report rs.length, Event.closeBrowser], by simp,
          auth_events_retryEvents _, discovery_events_retryEvents _,
          download_events_flatten _,
          by intro ev h; simp at h; rcases h with h | h <;> simp [h, isWrapupEvent], ?_⟩
        intro nm k hmem
        refine ⟨tasks, rfl, ?_⟩
        simp only [List.mem_cons, List.mem_append] at hmem
        rcases hmem with h | ((h | h) | h) | h
        · exact absurd h (by simp)
        · exact absurd h (not_mem_retryEvents_of_ctor _ _ (by intro j; simp) (by intro m; simp) _)
        · exact absurd h (not_mem_retryEvents_of_ctor _ _ (by intro j; simp) (by intro m; simp) _)
        · rw [List.mem_flatten] at h
          obtain ⟨seg, hseg, hev⟩ := h
          obtain ⟨p, hp, rfl⟩ := List.mem_map.mp hseg
          rcases mem_retryEvents _ _ _ hev with ⟨j, hj⟩ | ⟨m, hm⟩
          · obtain ⟨t, ht, rfl⟩ := List.mem_map.mp hp
            simp only [Event.downloadAttempt.injEq] at hj
            rw [hj.1]
            exact List.mem_map.mpr ⟨t, ht, rfl⟩
          · exact Event.noConfusion hm
        · simp at h

/-- C5 witness: the decomposition at the all-success downloader. -/
theorem phases_strictly_sequential_witness :
    ∃ (A B C D : List Event),
      (runMain cfg0 dOk).trace = Event.launch :: (A ++ B ++ C ++ D) ∧
      (∀ ev ∈ A, isAuthEvent ev = true) ∧
      (∀ ev ∈ B, isDiscoveryEvent ev = true) ∧
      (∀ ev ∈ C, isDownloadEvent ev = true) ∧
      (∀ ev ∈ D, isWrapupEvent ev = true) ∧
      (∀ nm k, Event.downloadAttempt nm k ∈ (runMain cfg0 dOk).trace →
        ∃ tasks, (runRetry (backoffConfig cfg0) dOk.getDownloadTasks).outcome = Except.ok tasks ∧
          nm ∈ tasks.map Task.name) :=
  phases_strictly_sequential cfg0 dOk

/-- C6: the browser is launched exactly once, as the first step of the
run, and closed exactly once, as the last step, on the success path and
on every failure path alike; a run that ends in a phase-level failure
(no result set reaches the reporter) exits with status 1, and a
successful run exits 0. -/
theorem browser_released_on_all_paths (cfg : Configuration) (d : Downloader) :
    ∃ pre, (runMain cfg d).trace = Event.launch :: (pre ++ [Event.closeBrowser]) ∧
      (∀ ev ∈ pre, ev ≠ Event.launch ∧ ev ≠ Event.closeBrowser) ∧
      ((runMain cfg d).results = none ↔ (runMain cfg d).exitCode = 1) ∧
      ((runMain cfg d).results ≠ none ↔ (runMain cfg d).exitCode = 0) := by
  cases hl : (runRetry (backoffConfig cfg) d.login).outcome with
  | error e =>
    rw [runMain_login_err cfg d e hl]
    refine ⟨retryEvents Event.loginAttempt (runRetry (backoffConfig cfg) d.login),
      by simp, ?_, by simp, by simp⟩
    intro ev h
    exact auth_ne_launch_close ev (auth_events_retryEvents _ ev h)
  | ok u =>
    cases hd : (runRetry (backoffConfig cfg) d.getDownloadTasks).outcome with
    | error e =>
      rw [runMain_disc_err cfg d u e hl hd]
      refine ⟨retryEvents Event.loginAttempt (runRetry (backoffConfig cfg) d.login) ++
        retryEvents Event.discoverAttempt (runRetry (backoffConfig cfg) d.getDownloadTasks),
        by simp, ?_, by simp, by simp⟩
      intro ev h
      rcases List.mem_append.mp h with h | h
      · exact auth_ne_launch_close ev (auth_events_retryEvents _ ev h)
      · exact discovery_ne_launch_close ev (discovery_events_retryEvents _ ev h)
    | ok tasks =>
      cases hc : collectOutcomes
          (tasks.map fun t => (t, runRetry (backoffConfig cfg) (d.performDownload t))) with
      | error e =>
        rw [runMain_dl_err cfg d u tasks e hl hd hc]
        refine ⟨retryEvents Event.loginAttempt (runRetry (backoffConfig cfg) d.login) ++
          retryEvents Event.discoverAttempt (runRetry (backoffConfig cfg) d.getDownloadTasks),
          by simp, ?_, by simp, by simp⟩
        intro ev h
        rcases List.mem_append.mp h with h | h
        · exact auth_ne_launch_close ev (auth_events_retryEvents _ ev h)
        · exact discovery_ne_launch_close ev (discovery_events_retryEvents _ ev h)
      | ok rs =>
        rw [runMain_all_ok cfg d u tasks rs hl hd hc]
        refine ⟨retryEvents Event.loginAttempt (runRetry (backoffConfig cfg) d.login) ++
          retryEvents Event.discoverAttempt (runRetry (backoffConfig cfg) d.getDownloadTasks) ++
          ((tasks.map fun t => (t, runRetry (backoffConfig cfg) (d.performDownload t))).map
            (fun p => retryEvents (Event.downloadAttempt p.1.name) p.2)).flatten ++
          [Event.report rs.length],
          by simp, ?_, by simp, by simp⟩
        intro ev h
        simp only [List.mem_append] at h
        rcases h with ((h | h) | h) | h
        · exact auth_ne_launch_close ev (auth_events_retryEvents _ ev h)
        · exact discovery_ne_launch_close ev (discovery_events_retryEvents _ ev h)
        · exact download_ne_launch_close ev (download_events_flatten _ ev h)
        · simp at h
          simp [h]

/-- C6 witness: the decomposition at a failing-discovery run. -/
theorem browser_released_on_all_paths_witness :
    ∃ pre, (runMain cfg0 dDiscFail).trace = Event.launch :: (pre ++ [Event.closeBrowser]) ∧
      (∀ ev ∈ pre, ev ≠ Event.launch ∧ ev ≠ Event.closeBrowser) ∧
      ((runMain cfg0 dDiscFail).results = none ↔ (runMain cfg0 dDiscFail).exitCode = 1) ∧
      ((runMain cfg0 dDiscFail).results ≠ none ↔ (runMain cfg0 dDiscFail).exitCode = 0) :=
  browser_released_on_all_paths cfg0 dDiscFail

/-- C7 (amended): `reportResults` is invoked exactly once on every run
whose download phase concludes — which in this code requires every task
to succeed within its retry budget — it is never retried, and it is
invoked only after the download phase concludes (only the browser
shutdown follows it).  On a run where some task exhausts its retries the
download phase never concludes and `reportResults` is not invoked at
all. -/
theorem report_after_download_phase (cfg : Configuration) (d : Downloader) :
    (∀ rs, (runMain cfg d).results = some rs →
      ((runMain cfg d).trace.countP isReportEvent = 1 ∧
        ∃ pre, (runMain cfg d).trace = pre ++ [Event.report rs.length, Event.closeBrowser] ∧
          ∀ ev ∈ pre, isReportEvent ev = false)) ∧
    ((runMain cfg d).results = none → (runMain cfg d).trace.countP isReportEvent = 0) := by
  cases hl : (runRetry (backoffConfig cfg) d.login).outcome with
  | error e =>
    rw [runMain_login_err cfg d e hl]
    refine ⟨by intro rs h; exact Option.noConfusion h, ?_⟩
    intro _
    rw [List.countP_eq_zero]
    intro ev h
    simp only [List.mem_cons, List.mem_append] at h
    rcases h with h | h | h
    · simp [h, isReportEvent]
    · simp [auth_not_report ev (auth_events_retryEvents _ ev h)]
    · simp at h
      simp [h, isReportEvent]
  | ok u =>
    cases hd : (runRetry (backoffConfig cfg) d.getDownloadTasks).outcome with
    | error e =>
      rw [runMain_disc_err cfg d u e hl hd]
      refine ⟨by intro rs h; exact Option.noConfusion h, ?_⟩
      intro _
      rw [List.countP_eq_zero]
      intro ev h
      simp only [List.mem_cons, List.mem_append] at h
      rcases h with h | (h | h) | h
      · simp [h, isReportEvent]
      · simp [auth_not_report ev (auth_events_retryEvents _ ev h)]
      · simp [discovery_not_report ev (discovery_events_retryEvents _ ev h)]
      · simp at h
        simp [h, isReportEvent]
    | ok tasks =>
      cases hc : collectOutcomes
          (tasks.map fun t => (t, runRetry (backoffConfig cfg) (d.performDownload t))) with
      | error e =>
        rw [runMain_dl_err cfg d u tasks e hl hd hc]
        refine ⟨by intro rs h; exact Option.noConfusion h, ?_⟩
        intro _
        rw [List.countP_eq_zero]
        intro ev h
        simp only [List.mem_cons, List.mem_append] at h
        rcases h with h | (h | h) | h
        · simp [h, isReportEvent]
        · simp [auth_not_report ev (auth_events_retryEvents _ ev h)]
        · simp [discovery_not_report ev (discovery_events_retryEvents _ ev h)]
        · simp at h
          simp [h, isReportEvent]
      | ok rs0 =>
        rw [runMain_all_ok cfg d u tasks rs0 hl hd hc]
        constructor
        · intro rs h
          simp only [Option.some.injEq] at h
          subst h
          have hpre : ∀ ev ∈ Event.launch ::
              (retryEvents Event.loginAttempt (runRetry (backoffConfig cfg) d.login) ++
                retryEvents Event.discoverAttempt (runRetry (backoffConfig cfg) d.getDownloadTasks) ++
                ((tasks.map fun t => (t, runRetry (backoffConfig cfg) (d.performDownload t))).map
                  (fun p => retryEvents (Event.downloadAttempt p.1.name) p.2)).flatten),
              isReportEvent ev = false := by
            intro ev h
            simp only [List.mem_cons, List.mem_append] at h
            rcases h with h | (h | h) | h
            · simp [h, isReportEvent]
            · simp [auth_not_report ev (auth_events_retryEvents _ ev h)]
            · simp [discovery_not_report ev (discovery_events_retryEvents _ ev h)]
            · simp [download_not_report ev (download_events_flatten _ ev h)]
          constructor
          · have h0 : (Event.launch ::
                (retryEvents Event.loginAttempt (runRetry (backoffConfig cfg) d.login) ++
                  retryEvents Event.discoverAttempt (runRetry (backoffConfig cfg) d.getDownloadTasks) ++
                  ((tasks.map fun t => (t, runRetry (backoffConfig cfg) (d.performDownload t))).map
                    (fun p => retryEvents (Event.downloadAttempt p.1.name) p.2)).flatten)).countP
                isReportEvent = 0 :=
              List.countP_eq_zero.mpr (fun ev h => by simp [hpre ev h])
            calc (Event.launch ::
                (retryEvents Event.loginAttempt (runRetry (backoffConfig cfg) d.login) ++
                  retryEvents Event.discoverAttempt (runRetry (backoffConfig cfg) d.getDownloadTasks) ++
                  ((tasks.map fun t => (t, runRetry (backoffConfig cfg) (d.performDownload t))).map
                    (fun p => retryEvents (Event.downloadAttempt p.1.name) p.2)).flatten ++
                  [Event.report rs0.length, Event.closeBrowser])).countP isReportEvent
                = (Event.launch ::
                    (retryEvents Event.loginAttempt (runRetry (backoffConfig cfg) d.login) ++
                      retryEvents Event.discoverAttempt (runRetry (backoffConfig cfg) d.getDownloadTasks) ++
                      ((tasks.map fun t => (t, runRetry (backoffConfig cfg) (d.performDownload t))).map
                        (fun p => retryEvents (Event.downloadAttempt p.1.name) p.2)).flatten)).countP
                    isReportEvent +
                  ([Event.report rs0.length, Event.closeBrowser]).countP isReportEvent := by
                  simp [List.countP_cons, List.countP_append]
                  omega
              _ = 1 := by rw [h0]; simp [List.countP_cons, isReportEvent]
          · refine ⟨Event.launch ::
              (retryEvents Event.loginAttempt (runRetry (backoffConfig cfg) d.login) ++
                retryEvents Event.discoverAttempt (runRetry (backoffConfig cfg) d.getDownloadTasks) ++
                ((tasks.map fun t => (t, runRetry (backoffConfig cfg) (d.performDownload t))).map
                  (fun p => retryEvents (Event.downloadAttempt p.1.name) p.2)).flatten),
              by simp, hpre⟩
        · intro h
          exact Option.noConfusion h

/-- C7 counterexample: in the `dFailB` run a task terminally fails; the
claim as stated requires `reportResults` still to be invoked once, but
no report event occurs in the trace at all. -/
theorem report_skipped_counterexample :
    (∃ e, (runRetry (backoffConfig cfg0) (dFailB.performDownload tB)).outcome = Except.error e) ∧
    (runMain cfg0 dFailB).trace.countP isReportEvent = 0 :=
  ⟨⟨"download failed", by decide⟩, by decide⟩

/-- C7 witness: the amended theorem at the all-success downloader. -/
theorem report_after_download_phase_witness :
    (∀ rs, (runMain cfg0 dOk).results = some rs →
      ((runMain cfg0 dOk).trace.countP isReportEvent = 1 ∧
        ∃ pre, (runMain cfg0 dOk).trace = pre ++ [Event.report rs.length, Event.closeBrowser] ∧
          ∀ ev ∈ pre, isReportEvent ev = false)) ∧
    ((runMain cfg0 dOk).results = none → (runMain cfg0 dOk).trace.countP isReportEvent = 0) :=
  report_after_download_phase cfg0 dOk


theorem eraseIdx_length_le {A : Type} (l : List A) (i : Nat) :
    (l.eraseIdx i).length ≤ l.length := by
  rw [List.length_eraseIdx]
  split <;> omega

theorem onNext_active_le (n : Int) (s : ExecState) (t : Task)
    (h : (s.active.length : Int) ≤ n) : ((onNext n s t).active.length : Int) ≤ n := by
  by_cases hlt : (s.active.length : Int) < n
  · simp only [onNext, hlt, if_pos, List.length_append, List.length_cons, List.length_nil]
    push_cast
    omega
  · simp only [onNext, hlt, if_neg, not_false_iff]
    exact h

theorem onInnerComplete_active_le (n : Int) (s : ExecState) (i : Nat) (r : DownloadResult)
    (h : (s.active.length : Int) ≤ n) :
    ((onInnerComplete n s i r).active.length : Int) ≤ n := by
  have he : ((s.active.eraseIdx i).length : Int) ≤ n := by
    have := eraseIdx_length_le s.active i
    omega
  unfold onInnerComplete
  cases hb : s.buffer with
  | nil => simpa using he
  | cons t rest => exact onNext_active_le n _ t (by simpa using he)

theorem foldl_step_active_le (n : Int) (evs : List (Nat × DownloadResult)) :
    ∀ (s : ExecState), (s.active.length : Int) ≤ n →
      ((evs.foldl (step n) s).active.length : Int) ≤ n := by
  induction evs with
  | nil => intro s h; simpa using h
  | cons ev evs ih =>
    intro s h
    simp only [List.foldl_cons]
    apply ih
    unfold step
    split
    · exact onInnerComplete_active_le n s ev.1 ev.2 h
    · exact h

theorem initState_active_le (n : Int) (tasks : List Task) (hn : 0 ≤ n) :
    ((initState n tasks).active.length : Int) ≤ n := by
  unfold initState
  have haux : ∀ (ts : List Task) (s : ExecState), (s.active.length : Int) ≤ n →
      ((ts.foldl (onNext n) s).active.length : Int) ≤ n := by
    intro ts
    induction ts with
    | nil => intro s h; simpa using h
    | cons t ts ih => intro s h; exact ih _ (onNext_active_le n s t h)
  exact haux tasks _ (by simpa using hn)

theorem onInnerComplete_refill (n : Int) (s : ExecState) (i : Nat) (r : DownloadResult)
    (hi : i < s.active.length) (hb : s.buffer ≠ [])
    (hle : (s.active.length : Int) ≤ n) :
    (onInnerComplete n s i r).active.length = s.active.length := by
  have hlen : (s.active.eraseIdx i).length = s.active.length - 1 := by
    rw [List.length_eraseIdx]
    simp [hi]
  unfold onInnerComplete
  cases hbuf : s.buffer with
  | nil => exact absurd hbuf hb
  | cons t rest =>
    have hlt : (((s.active.length - 1 : Nat) : Int)) < n := by omega
    simp only [onNext, hlen, hlt, if_pos, List.length_append, List.length_cons,
      List.length_nil]
    omega

/-- C2: during the download phase the number of in-flight downloads
never exceeds the concurrency limit `N ≥ 1`, for every task-sequence
length (including 0) and every sequence of completion events; and a
freed slot is refilled immediately rather than waiting for a batch:
while buffered tasks remain, completing any active download leaves the
number of in-flight downloads unchanged. -/
theorem mergeMap_bounded_concurrency (tasks : List Task) (n : Int) (hn : 1 ≤ n)
    (evs : List (Nat × DownloadResult)) :
    ((execTrace n tasks evs).active.length : Int) ≤ n ∧
    (∀ i r, i < (execTrace n tasks evs).active.length →
      (execTrace n tasks evs).buffer ≠ [] →
      (step n (execTrace n tasks evs) (i, r)).active.length =
        (execTrace n tasks evs).active.length) := by
  have hbound : ((execTrace n tasks evs).active.length : Int) ≤ n :=
    foldl_step_active_le n evs (initState n tasks) (initState_active_le n tasks (by omega))
  refine ⟨hbound, ?_⟩
  intro i r hi hb
  unfold step
  simp only [hi, if_pos]
  exact onInnerComplete_refill n _ i r hi hb hbound

/-- C2 witness: three tasks, limit 2, one completion event. -/
theorem mergeMap_bounded_concurrency_witness :
    ((1 : Int) ≤ 2) ∧
    (((execTrace 2 [tA, tB, tA] [(0, resA)]).active.length : Int) ≤ 2 ∧
      (∀ i r, i < (execTrace 2 [tA, tB, tA] [(0, resA)]).active.length →
        (execTrace 2 [tA, tB, tA] [(0, resA)]).buffer ≠ [] →
        (step 2 (execTrace 2 [tA, tB, tA] [(0, resA)]) (i, r)).active.length =
          (execTrace 2 [tA, tB, tA] [(0, resA)]).active.length)) :=
  ⟨by norm_num, mergeMap_bounded_concurrency [tA, tB, tA] 2 (by norm_num) [(0, resA)]⟩

theorem execTrace_nonpositive_aux (n : Int) (hn : n ≤ 0) :
    ∀ (es : List (Nat × DownloadResult)) (s : ExecState), s.active = [] → s.done = [] →
      (es.foldl (step n) s).active = [] ∧ (es.foldl (step n) s).done = [] := by
  intro es
  induction es with
  | nil => intro s h1 h2; simp [h1, h2]
  | cons ev es ih =>
    intro s h1 h2
    simp only [List.foldl_cons]
    apply ih
    · unfold step
      have : ¬ (ev.1 < s.active.length) := by simp [h1]
      simp [this, h1]
    · unfold step
      have : ¬ (ev.1 < s.active.length) := by simp [h1]
      simp [this, h2]

theorem initState_nonpositive (n : Int) (hn : n ≤ 0) (tasks : List Task) :
    (initState n tasks).active = [] ∧ (initState n tasks).done = [] := by
  unfold initState
  have haux : ∀ (ts : List Task) (s : ExecState), s.active = [] → s.done = [] →
      (ts.foldl (onNext n) s).active = [] ∧ (ts.foldl (onNext n) s).done = [] := by
    intro ts
    induction ts with
    | nil => intro s h1 h2; simp [h1, h2]
    | cons t ts ih =>
      intro s h1 h2
      simp only [List.foldl_cons]
      have hno : ¬ ((0 : Int) < n) := by omega
      exact ih _ (by simp [onNext, h1, hno]) (by simp [onNext, h1, h2, hno])
  exact haux tasks _ rfl rfl

/-- C8 (amended): a concurrency limit `N ≤ 0` is not rejected at
startup: `getConfiguration` passes the concurrency option through with
no validation, so whenever it accepts an invocation at all it accepts it
with the same nonpositive concurrency, and the run proceeds into its
phases; the degeneration happens mid-run instead — with `N ≤ 0` the
download scheduler never admits and never completes any task, whatever
completion events occur, so with a nonempty task list the download phase
never terminates. -/
theorem concurrency_not_validated (o : RawOptions) (n : Int) (hn : n ≤ 0)
    (tasks : List Task) (evs : List (Nat × DownloadResult))
    (ho : getConfiguration o ≠ none) :
    (∃ cfg, getConfiguration o = some cfg ∧ cfg.concurrency = o.concurrency) ∧
    (execTrace n tasks evs).active = [] ∧ (execTrace n tasks evs).done = [] := by
  constructor
  · cases hg : getConfiguration o with
    | none => exact absurd hg ho
    | some cfg =>
      refine ⟨cfg, rfl, ?_⟩
      unfold getConfiguration at hg
      split at hg
      · exact Option.noConfusion hg
      · split at hg
        · exact Option.noConfusion hg
        · split at hg
          · exact Option.noConfusion hg
          · rw [Option.some.injEq] at hg
            rw [← hg]
  · obtain ⟨hia, hid⟩ := initState_nonpositive n hn tasks
    exact execTrace_nonpositive_aux n hn evs _ hia hid

/-- C8 counterexample: the raw options `rawC0` carry concurrency 0, yet
`getConfiguration` accepts them — no fail-fast configuration error — and
the resulting configuration still drives the run into the
authentication phase, contradicting both halves of the claim. -/
theorem concurrency_zero_accepted_counterexample :
    getConfiguration rawC0 = some cfgC0 ∧ cfgC0.concurrency = 0 ∧
    Event.loginAttempt 0 ∈ (runMain cfgC0 dOk).trace := by
  refine ⟨by decide, by decide, by decide⟩

/-- C8 witness: the amended theorem at `rawC0`, limit 0, one task. -/
theorem concurrency_not_validated_witness :
    ((0 : Int) ≤ 0 ∧ getConfiguration rawC0 ≠ none) ∧
    ((∃ cfg, getConfiguration rawC0 = some cfg ∧ cfg.concurrency = rawC0.concurrency) ∧
      (execTrace 0 [tA] [(0, resA)]).active = [] ∧
      (execTrace 0 [tA] [(0, resA)]).done = []) :=
  ⟨⟨by decide, by decide⟩,
    concurrency_not_validated rawC0 0 (by decide) [tA] [(0, resA)] (by decide)⟩

/-- C9: if authentication fails transiently on its first attempt and
succeeds on the second (at least one retry being allowed), the
authenticate capability is invoked exactly twice: the run begins with
the browser launch, login attempt 0, one single 5000 ms backoff wait,
and login attempt 1; no further login attempt ever occurs; and the
discovery phase starts immediately after the second, successful
attempt. -/
theorem auth_retry_scenario (cfg : Configuration) (d : Downloader) (e : Err)
    (h0 : d.login 0 = Except.error e) (h1 : d.login 1 = Except.ok ())
    (hr : 1 ≤ cfg.retries) :
    ∃ rest, (runMain cfg d).trace =
      Event.launch :: Event.loginAttempt 0 :: Event.wait 5000 ::
        Event.loginAttempt 1 :: rest ∧
      (∀ k, Event.loginAttempt k ∉ rest) ∧
      rest.head? = some (Event.discoverAttempt 0) := by
  have hlt : runRetry (backoffConfig cfg) d.login =
      { delays := [retryDelay (backoffConfig cfg) 0], outcome := Except.ok () } :=
    runRetry_fail_then_ok _ _ e () h0 h1 hr
  have hdelay : retryDelay (backoffConfig cfg) 0 = 5000 := by
    simp [retryDelay, backoffConfig]
  have hlev : retryEvents Event.loginAttempt (runRetry (backoffConfig cfg) d.login) =
      [Event.loginAttempt 0, Event.wait 5000, Event.loginAttempt 1] := by
    rw [hlt]
    simp [retryEvents, retryEventsAux, hdelay]
  have hok : (runRetry (backoffConfig cfg) d.login).outcome = Except.ok () := by
    rw [hlt]
  have hdhead : ∃ dtail,
      retryEvents Event.discoverAttempt (runRetry (backoffConfig cfg) d.getDownloadTasks) =
        Event.discoverAttempt 0 :: dtail :=
    retryEventsAux_head Event.discoverAttempt 0 _
  obtain ⟨dtail, hdtl⟩ := hdhead
  have hdmem : ∀ k, Event.loginAttempt k ∉
      retryEvents Event.discoverAttempt (runRetry (backoffConfig cfg) d.getDownloadTasks) :=
    fun k => not_mem_retryEvents_of_ctor _ _ (by intro j; simp) (by intro m; simp) _
  cases hd : (runRetry (backoffConfig cfg) d.getDownloadTasks).outcome with
  | error e2 =>
    rw [runMain_disc_err cfg d () e2 hok hd]
    refine ⟨retryEvents Event.discoverAttempt (runRetry (backoffConfig cfg) d.getDownloadTasks) ++
      [Event.closeBrowser], by rw [hlev]; simp, ?_, by rw [hdtl]; simp⟩
    intro k hmem
    rcases List.mem_append.mp hmem with h | h
    · exact hdmem k h
    · simp at h
  | ok tasks =>
    cases hc : collectOutcomes
        (tasks.map fun t => (t, runRetry (backoffConfig cfg) (d.performDownload t))) with
    | error e2 =>
      rw [runMain_dl_err cfg d () tasks e2 hok hd hc]
      refine ⟨retryEvents Event.discoverAttempt (runRetry (backoffConfig cfg) d.getDownloadTasks) ++
        [Event.closeBrowser], by rw [hlev]; simp, ?_, by rw [hdtl]; simp⟩
      intro k hmem
      rcases List.mem_append.mp hmem with h | h
      · exact hdmem k h
      · simp at h
    | ok rs =>
      rw [runMain_all_ok cfg d () tasks rs hok hd hc]
      refine ⟨retryEvents Event.discoverAttempt (runRetry (backoffConfig cfg) d.getDownloadTasks) ++
        (((tasks.map fun t => (t, runRetry (backoffConfig cfg) (d.performDownload t))).map
          (fun p => retryEvents (Event.downloadAttempt p.1.name) p.2)).flatten ++
          [Event.report rs.length, Event.closeBrowser]),
        by rw [hlev]; simp, ?_, by rw [hdtl]; simp⟩
      intro k hmem
      rcases List.mem_append.mp hmem with h | h
      · exact hdmem k h
      · rcases List.mem_append.mp h with h | h
        · have := download_events_flatten _ _ h
          simp [isDownloadEvent] at this
        · simp at h

/-- C9 witness: the scenario theorem applied to `dLoginRetry`. -/
theorem auth_retry_scenario_witness :
    (dLoginRetry.login 0 = Except.error ("network") ∧
      dLoginRetry.login 1 = Except.ok () ∧ 1 ≤ cfg0.retries) ∧
    (∃ rest, (runMain cfg0 dLoginRetry).trace =
      Event.launch :: Event.loginAttempt 0 :: Event.wait 5000 ::
        Event.loginAttempt 1 :: rest ∧
      (∀ k, Event.loginAttempt k ∉ rest) ∧
      rest.head? = some (Event.discoverAttempt 0)) :=
  ⟨⟨by decide, by decide, by decide⟩,
    auth_retry_scenario cfg0 dLoginRetry ("network") (by decide) (by decide) (by decide)⟩

/-- C10: with the debug flag set, the configuration dump printed at
startup has both credential fields replaced by the literal `<censored>`
while every other field is printed unchanged; the printed value is
independent of the real credentials (two debug configurations differing
only in credentials print identically); and the configuration object
the pipeline hands to the downloader keeps the real credentials
unchanged. -/
theorem debug_dump_censors_credentials (cfg : Configuration) (h : cfg.debug = true) :
    ∃ printed, debugPrintedConfig cfg = some printed ∧
      printed.user = "<censored>" ∧ printed.password = "<censored>" ∧
      printed.output = cfg.output ∧ printed.format = cfg.format ∧
      printed.retries = cfg.retries ∧ printed.delay = cfg.delay ∧
      printed.concurrency = cfg.concurrency ∧ printed.debug = cfg.debug ∧
      printed.courseUrl = cfg.courseUrl ∧
      (downloaderConfig cfg).user = cfg.user ∧
      (downloaderConfig cfg).password = cfg.password ∧
      (∀ cfg2 : Configuration, cfg2.debug = true → cfg2.output = cfg.output →
        cfg2.format = cfg.format → cfg2.retries = cfg.retries → cfg2.delay = cfg.delay →
        cfg2.concurrency = cfg.concurrency → cfg2.courseUrl = cfg.courseUrl →
        debugPrintedConfig cfg2 = debugPrintedConfig cfg) := by
  refine ⟨clone cfg censorOverrides, by simp [debugPrintedConfig, h],
    rfl, rfl, rfl, rfl, rfl, rfl, rfl, rfl, rfl, rfl, rfl, ?_⟩
  intro cfg2 hdbg ho hf hrr hdel hc hcu
  obtain ⟨u1, p1, o1, f1, r1, dl1, c1, db1, cu1⟩ := cfg
  obtain ⟨u2, p2, o2, f2, r2, dl2, c2, db2, cu2⟩ := cfg2
  simp_all [debugPrintedConfig, clone, censorOverrides]

/-- C10 witness: the censoring theorem at the concrete debug
configuration `cfg0`. -/
theorem debug_dump_censors_credentials_witness :
    cfg0.debug = true ∧
    (∃ printed, debugPrintedConfig cfg0 = some printed ∧
      printed.user = "<censored>" ∧ printed.password = "<censored>" ∧
      printed.output = cfg0.output ∧ printed.format = cfg0.format ∧
      printed.retries = cfg0.retries ∧ printed.delay = cfg0.delay ∧
      printed.concurrency = cfg0.concurrency ∧ printed.debug = cfg0.debug ∧
      printed.courseUrl = cfg0.courseUrl ∧
      (downloaderConfig cfg0).user = cfg0.user ∧
      (downloaderConfig cfg0).password = cfg0.password ∧
      (∀ cfg2 : Configuration, cfg2.debug = true → cfg2.output = cfg0.output →
        cfg2.format = cfg0.format → cfg2.retries = cfg0.retries → cfg2.delay = cfg0.delay →
        cfg2.concurrency = cfg0.concurrency → cfg2.courseUrl = cfg0.courseUrl →
        debugPrintedConfig cfg2 = debugPrintedConfig cfg0)) :=
  ⟨by decide, debug_dump_censors_credentials cfg0 (by decide)⟩

end EdxArchive
